import Mathlib

/-!
Verification of the gogolfing/dotenv line parser and source driver.

The Go source (package dotenv) is embedded shallowly: Go strings become
`List Char` (all tokens involved are ASCII, and every `strings` operation
used by the package — TrimLeft/TrimRight with the cutset " \t", HasPrefix,
HasSuffix, TrimPrefix, Index, Contains, ContainsAny — acts on such lists
exactly as it acts on Go byte strings, because no space, tab, `#`, `"` or
`=` byte can occur inside a multi-byte UTF-8 character).  Fallible results
become pairs with an `Option` error component, mirroring Go's multiple
return values, and the stateful driver becomes explicit state passing.
-/

namespace Dotenv

/-- Go strings are modelled as lists of characters. -/
abbrev Str := List Char

/-- Convenience conversion from Lean string literals. -/
def str (s : String) : Str := s.data

/-- The characters of the Go constant `SpaceTab = " \t"`. -/
def isSpaceTab (c : Char) : Bool := c = ' ' || c = '\t'

/-- Go `strings.TrimLeft(l, SpaceTab)`: drop leading spaces and tabs. -/
def trimLeft (l : Str) : Str := l.dropWhile isSpaceTab

/-- Go `strings.TrimRight(l, SpaceTab)`: drop trailing spaces and tabs. -/
def trimRight (l : Str) : Str := (l.reverse.dropWhile isSpaceTab).reverse

/-- Go `strings.Index(s, pat)`: index of the leftmost occurrence of `pat`
in `s`, `none` when absent (`-1` in Go); the empty pattern occurs at 0. -/
def strIndex (s pat : Str) : Option Nat :=
  match s with
  | [] => if pat.isPrefixOf ([] : Str) then some 0 else none
  | c :: rest =>
    if pat.isPrefixOf (c :: rest) then some 0
    else (strIndex rest pat).map (· + 1)

/-- Go `strings.Contains(s, pat)`: `Index(s, pat) >= 0`. -/
def strContains (s pat : Str) : Bool := (strIndex s pat).isSome

/-- Go `strings.TrimPrefix(l, pre)`. -/
def trimToken (l pre : Str) : Str :=
  if pre.isPrefixOf l then l.drop pre.length else l

/-- The line-level errors of the package (`ErrEmptyLine` is the internal
skip sentinel; `unquoteSyntax` stands for the `strconv.ErrSyntax` failure
of the default unquote function). -/
inductive LineError where
  | emptyLine : LineError
  | nonVariableLine (line : Str) : LineError
  | invalidName (name : Str) : LineError
  | invalidWhitespaceValuePrefix (v : Str) : LineError
  | valueUnclosedQuote (vrb : Str) (quote : Str) : LineError
  | unquoteSyntax : LineError
deriving DecidableEq, Repr

/-- The `Sourcer` configuration struct: `Comment`, `Quote`, `Export`
tokens and the pluggable `Unquote` function (which in Go returns a
`(string, error)` pair). -/
structure Sourcer where
  Comment : Str
  Quote : Str
  Export : Str
  Unquote : Str → Str × Option LineError

/-- Modelled from the spec: the default `unquote_function` is Go's
`strconv.Unquote`, whose source is not part of this repository.  Per the
spec it "transforms a quoted+escaped literal into its literal string
value; fails with an `UnquoteError` on malformed escape sequences", and
the entire quoted span including both `"` delimiters is passed in.  This
model handles the double-quoted form: the input must start with `"` and
end with a matching unescaped `"`, raw newlines and interior unescaped
quotes are malformed, and the escape sequences `\n`, `\t`, `\r`, `\\`,
`\"` are interpreted (other escape forms are treated as malformed). -/
def unquoteLoop : Str → Option Str
  | [] => none
  | ['"'] => some []
  | '"' :: _ :: _ => none
  | '\n' :: _ => none
  | ['\\'] => none
  | '\\' :: e :: rest =>
    match e with
    | 'n' => (unquoteLoop rest).map ('\n' :: ·)
    | 't' => (unquoteLoop rest).map ('\t' :: ·)
    | 'r' => (unquoteLoop rest).map ('\r' :: ·)
    | '\\' => (unquoteLoop rest).map ('\\' :: ·)
    | '"' => (unquoteLoop rest).map ('"' :: ·)
    | _ => none
  | c :: rest => (unquoteLoop rest).map (c :: ·)

/-- Modelled from the spec: see `unquoteLoop`.  Returns the decoded body
or the syntax failure, in the Go `(string, error)` shape. -/
def goUnquote (v : Str) : Str × Option LineError :=
  match v with
  | '"' :: rest =>
    match unquoteLoop rest with
    | some out => (out, none)
    | none => ([], some .unquoteSyntax)
  | _ => ([], some .unquoteSyntax)

/-- `NewSourcer()`: Comment `#`, Quote `"`, Export `export`, Unquote
`strconv.Unquote` (modelled by `goUnquote`). -/
def defaultSourcer : Sourcer :=
  { Comment := ['#'], Quote := ['"'], Export := ['e', 'x', 'p', 'o', 'r', 't'],
    Unquote := goUnquote }

/-- `Sourcer.isNameInvalid`: a name is invalid when it is empty, contains
a space or tab, or contains the (non-empty) comment token. -/
def isNameInvalid (s : Sourcer) (name : Str) : Bool :=
  name.length == 0 || name.any isSpaceTab ||
    (strContains name s.Comment && !s.Comment.isEmpty)

/-- The comment-truncation statement inside `Sourcer.fixVariable`:
`commentIndex := strings.Index(v, s.Comment); if commentIndex >= 0 &&
s.Comment != "" { v = v[:commentIndex] }`. -/
def fixComment (s : Sourcer) (v : Str) : Str :=
  match strIndex v s.Comment with
  | some ci => if s.Comment ≠ [] then v.take ci else v
  | none => v

/-- `Sourcer.fixVariable`: normalize the raw text after the first `=`. -/
def fixVariable (s : Sourcer) (v : Str) : Str × Option LineError :=
  if v.length = 0 then (v, none)
  else if s.Quote.isPrefixOf v ∧ s.Quote ≠ [] then
    if s.Quote.isSuffixOf v ∧ v ≠ s.Quote then s.Unquote v
    else ([], some (.valueUnclosedQuote v s.Quote))
  else if trimRight (fixComment s v) ≠ trimLeft (trimRight (fixComment s v)) then
    ([], some (.invalidWhitespaceValuePrefix v))
  else (trimRight (fixComment s v), none)

/-- The part of `Sourcer.NameVar` after the export-prefix step: the `=`
search, the name/value split, the comment-prefix check, name validation
and value normalization.  `origLine` is the untouched input used for
error payloads; `line` is the working text. -/
def nameVarCore (s : Sourcer) (origLine line : Str) :
    Str × Str × Option LineError :=
  match strIndex line ['='] with
  | none =>
    if (trimLeft line).length = 0 ∨
        (s.Comment.isPrefixOf (trimLeft line) ∧ s.Comment ≠ []) then
      ([], [], some .emptyLine)
    else ([], [], some (.nonVariableLine origLine))
  | some equalIndex =>
    if s.Comment.isPrefixOf (trimLeft line) ∧ s.Comment ≠ [] then
      ([], [], some .emptyLine)
    else if isNameInvalid s (trimLeft (line.take equalIndex)) then
      ([], [], some (.invalidName (trimLeft (line.take equalIndex))))
    else
      (trimLeft (line.take equalIndex),
        (fixVariable s (line.drop (equalIndex + 1))).1,
        (fixVariable s (line.drop (equalIndex + 1))).2)

/-- `Sourcer.NameVar`: left-trim, strip a non-empty export token (failing
with `NonVariableLine` when what follows is empty or has the comment
token as a prefix — note the Go code does not guard this prefix test
with `s.Comment != ""`), then continue with `nameVarCore`. -/
def NameVar (s : Sourcer) (line0 : Str) : Str × Str × Option LineError :=
  if s.Export.isPrefixOf (trimLeft line0) ∧ s.Export ≠ [] then
    if (trimLeft (trimToken (trimLeft line0) s.Export)).length = 0 ∨
        s.Comment.isPrefixOf (trimLeft (trimToken (trimLeft line0) s.Export)) then
      ([], [], some (.nonVariableLine line0))
    else nameVarCore s line0 (trimLeft (trimToken (trimLeft line0) s.Export))
  else nameVarCore s line0 (trimLeft line0)

/-- The `*ErrSourcing` wrapper: 1-based line number plus the line's error,
which is either a parse `LineError` or a visitor error of type `ε`. -/
structure ErrSourcing (ε : Type) where
  line : Nat
  lineError : LineError ⊕ ε
deriving DecidableEq, Repr

/-- Loop body of `Sourcer.sourceVisitor`: `lineNumber` holds the count of
lines already consumed (the Go code increments it before parsing each
line).  The visitor is state-passing: `visit name v st = (st', err)`. -/
def sourceVisitorAux {σ ε : Type} (s : Sourcer)
    (visit : Str → Str → σ → σ × Option ε) :
    List Str → Nat → σ → σ × Option (ErrSourcing ε)
  | [], _, st => (st, none)
  | line :: rest, lineNumber, st =>
    match NameVar s line with
    | (_, _, some .emptyLine) => sourceVisitorAux s visit rest (lineNumber + 1) st
    | (_, _, some e) => (st, some ⟨lineNumber + 1, Sum.inl e⟩)
    | (name, v, none) =>
      match visit name v st with
      | (st', none) => sourceVisitorAux s visit rest (lineNumber + 1) st'
      | (st', some e) => (st', some ⟨lineNumber + 1, Sum.inr e⟩)

/-- `Sourcer.sourceVisitor`: scan the input lines (the `bufio.Scanner`
is modelled by the line list itself) with the counter starting at 0. -/
def sourceVisitor {σ ε : Type} (s : Sourcer)
    (visit : Str → Str → σ → σ × Option ε) (lines : List Str) (st : σ) :
    σ × Option (ErrSourcing ε) :=
  sourceVisitorAux s visit lines 0 st

/-- `Sourcer.SourceFile` after a successful `os.Open`: run the driver
over the file's lines; on a driver error, return it immediately —
without closing the file — otherwise call `file.Close()`.  The boolean
records whether `Close` was called before returning. -/
def SourceFile {σ ε : Type} (s : Sourcer)
    (visit : Str → Str → σ → σ × Option ε) (contents : List Str) (st : σ) :
    (σ × Option (ErrSourcing ε)) × Bool :=
  match sourceVisitor s visit contents st with
  | (st', some e) => ((st', some e), false)
  | (st', none) => ((st', none), true)

/-- The visitor used by `Sourcer.NameVars`: append the pair to the
collected list; it never fails. -/
def collectVisit : Str → Str → List (Str × Str) → List (Str × Str) × Option Unit :=
  fun name v st => (st ++ [(name, v)], none)

/-- The spec's `ParseOutcome` sum type: `Skip` (blank or whole-comment
line), `Entry`, or a classified error. -/
inductive ParseOutcome where
  | skip : ParseOutcome
  | entry (name v : Str) : ParseOutcome
  | fail (e : LineError) : ParseOutcome
deriving DecidableEq, Repr

/-- Classify a `NameVar` result as the spec's `ParseOutcome`: the
`ErrEmptyLine` sentinel becomes the private `skip` variant. -/
def parseOutcome (s : Sourcer) (line : Str) : ParseOutcome :=
  match NameVar s line with
  | (_, _, some .emptyLine) => .skip
  | (_, _, some e) => .fail e
  | (name, v, none) => .entry name v

/-- The spec's driver loop, written from its words: maintain a 1-based
counter (`n` is the current line's number), skip on `Skip` with no
visitor call, call the visitor on `Entry` and wrap its failure with the
current line number, wrap an `Error` outcome with the current line
number, succeed on exhaustion. -/
def driveSpecAux {σ ε : Type} (s : Sourcer)
    (visit : Str → Str → σ → σ × Option ε) :
    List Str → Nat → σ → σ × Option (ErrSourcing ε)
  | [], _, st => (st, none)
  | l :: rest, n, st =>
    match parseOutcome s l with
    | .skip => driveSpecAux s visit rest (n + 1) st
    | .fail e => (st, some ⟨n, Sum.inl e⟩)
    | .entry name v =>
      match visit name v st with
      | (st', none) => driveSpecAux s visit rest (n + 1) st'
      | (st', some e) => (st', some ⟨n, Sum.inr e⟩)

/-- The spec's driver, counting from 1. -/
def driveSpec {σ ε : Type} (s : Sourcer)
    (visit : Str → Str → σ → σ × Option ε) (lines : List Str) (st : σ) :
    σ × Option (ErrSourcing ε) :=
  driveSpecAux s visit lines 1 st

/-- The name/value pairs of the lines that parse successfully. -/
def lineEntries (s : Sourcer) (lines : List Str) : List (Str × Str) :=
  lines.filterMap fun l =>
    match NameVar s l with
    | (name, v, none) => some (name, v)
    | _ => none

/-- Apply the visitor's state transitions, in order, to a list of
entries. -/
def foldVisits {σ ε : Type} (visit : Str → Str → σ → σ × Option ε)
    (st : σ) (es : List (Str × Str)) : σ :=
  es.foldl (fun st nv => (visit nv.1 nv.2 st).1) st

example : NameVar defaultSourcer (str "a=b") = (str "a", str "b", none) := by decide
example : NameVar defaultSourcer (str "export a=b") = (str "a", str "b", none) := by decide
example : NameVar defaultSourcer (str " \t#c") = ([], [], some .emptyLine) := by decide
example : NameVar defaultSourcer (str "a= b") =
    (str "a", [], some (.invalidWhitespaceValuePrefix (str " b"))) := by decide
example : NameVar defaultSourcer (str "A_B_C_D=\"foo\\nbar\"") =
    (str "A_B_C_D", str "foo\nbar", none) := by decide
example : NameVar defaultSourcer (str "ab\"cd=foobar") =
    (str "ab\"cd", str "foobar", none) := by decide

/-! ### Helper lemmas about the string primitives -/

theorem isPrefixOf_cons_eq (a b : Char) (l1 l2 : Str) :
    (a :: l1).isPrefixOf (b :: l2) = (a == b && l1.isPrefixOf l2) := rfl

theorem isPrefixOf_cons_ne {a b : Char} (h : (a == b) = false) (l1 l2 : Str) :
    (a :: l1).isPrefixOf (b :: l2) = false := by
  rw [isPrefixOf_cons_eq, h, Bool.false_and]

theorem trimLeft_nil : trimLeft [] = [] := rfl

theorem trimLeft_cons_neg {c : Char} (h : isSpaceTab c = false) (l : Str) :
    trimLeft (c :: l) = c :: l := by
  simp [trimLeft, List.dropWhile_cons, h]

theorem trimLeft_cons_pos {c : Char} (h : isSpaceTab c = true) (l : Str) :
    trimLeft (c :: l) = trimLeft l := by
  simp [trimLeft, List.dropWhile_cons, h]

theorem trimLeft_idem (l : Str) : trimLeft (trimLeft l) = trimLeft l := by
  induction l with
  | nil => rfl
  | cons c t ih =>
    by_cases h : isSpaceTab c = true
    · rw [trimLeft_cons_pos h]; exact ih
    · rw [Bool.not_eq_true] at h
      rw [trimLeft_cons_neg h, trimLeft_cons_neg h]

theorem trimLeft_eq_self_of_any_false {l : Str} (h : l.any isSpaceTab = false) :
    trimLeft l = l := by
  cases l with
  | nil => rfl
  | cons c t =>
    rw [List.any_cons, Bool.or_eq_false_iff] at h
    exact trimLeft_cons_neg h.1 t

theorem strIndex_nil (pat : Str) :
    strIndex [] pat = if pat.isPrefixOf ([] : Str) then some 0 else none := rfl

theorem strIndex_cons (c : Char) (rest pat : Str) :
    strIndex (c :: rest) pat =
      if pat.isPrefixOf (c :: rest) then some 0
      else (strIndex rest pat).map (· + 1) := rfl

theorem strIndex_single_eq_none_iff {c : Char} {s : Str} :
    strIndex s [c] = none ↔ c ∉ s := by
  induction s with
  | nil => simp [strIndex_nil, List.isPrefixOf]
  | cons a t ih =>
    rw [strIndex_cons, isPrefixOf_cons_eq]
    by_cases h : c = a
    · subst h
      simp [List.isPrefixOf]
    · have hb : (c == a) = false := by simp [h]
      simp only [hb, Bool.false_and, if_neg Bool.false_ne_true,
        Option.map_eq_none', List.mem_cons, not_or, ih]
      exact ⟨fun hc => ⟨h, hc⟩, fun hc => hc.2⟩

theorem strContains_single_eq_false_iff {c : Char} {s : Str} :
    strContains s [c] = false ↔ c ∉ s := by
  constructor
  · intro h
    rw [← strIndex_single_eq_none_iff]
    cases hI : strIndex s [c] with
    | none => rfl
    | some i => rw [strContains, hI] at h; simp at h
  · intro h
    rw [strContains, strIndex_single_eq_none_iff.mpr h]
    rfl

theorem strIndex_append_single {c : Char} {l r : Str} (h : c ∉ l) :
    strIndex (l ++ c :: r) [c] = some l.length := by
  induction l with
  | nil =>
    rw [List.nil_append, strIndex_cons, isPrefixOf_cons_eq]
    simp [List.isPrefixOf]
  | cons a t ih =>
    rw [List.mem_cons, not_or] at h
    have hb : (c == a) = false := by simp [h.1]
    rw [List.cons_append, strIndex_cons, isPrefixOf_cons_eq, hb, Bool.false_and,
      if_neg Bool.false_ne_true, ih h.2]
    rfl

/-! ### Unfolding equations for `nameVarCore`, and facts extracted from
successful parses -/

theorem nameVarCore_none {s : Sourcer} {o l : Str}
    (hI : strIndex l ['='] = none) :
    nameVarCore s o l =
      if (trimLeft l).length = 0 ∨
          (s.Comment.isPrefixOf (trimLeft l) ∧ s.Comment ≠ []) then
        ([], [], some .emptyLine)
      else ([], [], some (.nonVariableLine o)) := by
  unfold nameVarCore
  rw [hI]

theorem nameVarCore_some {s : Sourcer} {o l : Str} {i : Nat}
    (hI : strIndex l ['='] = some i) :
    nameVarCore s o l =
      if s.Comment.isPrefixOf (trimLeft l) ∧ s.Comment ≠ [] then
        ([], [], some .emptyLine)
      else if isNameInvalid s (trimLeft (l.take i)) then
        ([], [], some (.invalidName (trimLeft (l.take i))))
      else
        (trimLeft (l.take i), (fixVariable s (l.drop (i + 1))).1,
          (fixVariable s (l.drop (i + 1))).2) := by
  unfold nameVarCore
  rw [hI]

theorem nameVarCore_success_invalid_false {s : Sourcer} {o l name v : Str}
    (h : nameVarCore s o l = (name, v, none)) :
    isNameInvalid s name = false := by
  rcases hI : strIndex l ['='] with _ | i
  · rw [nameVarCore_none hI] at h
    split_ifs at h <;> simp at h
  · rw [nameVarCore_some hI] at h
    split_ifs at h with h1 h2
    · simp at h
    · simp at h
    · rw [Prod.mk.injEq, Prod.mk.injEq] at h
      rw [← h.1]
      simpa using h2

theorem nameVarCore_success_line_facts {s : Sourcer} {o l name v : Str}
    (h : nameVarCore s o l = (name, v, none)) :
    l ≠ [] ∧ ¬(s.Comment.isPrefixOf (trimLeft l) = true ∧ s.Comment ≠ []) := by
  rcases hI : strIndex l ['='] with _ | i
  · rw [nameVarCore_none hI] at h
    split_ifs at h <;> simp at h
  · rw [nameVarCore_some hI] at h
    split_ifs at h with h1 h2
    · simp at h
    · simp at h
    · refine ⟨?_, h1⟩
      intro hnil
      subst hnil
      rw [strIndex_nil] at hI
      simp [List.isPrefixOf] at hI

theorem nameVarCore_success_origLine {s : Sourcer} {o1 o2 l name v : Str}
    (h : nameVarCore s o1 l = (name, v, none)) :
    nameVarCore s o2 l = (name, v, none) := by
  rcases hI : strIndex l ['='] with _ | i
  · rw [nameVarCore_none hI] at h
    split_ifs at h <;> simp at h
  · rw [nameVarCore_some (o := o1) hI] at h
    rw [nameVarCore_some (o := o2) hI]
    split_ifs at h ⊢ <;> simp_all

theorem NameVar_no_export {s : Sourcer} {l : Str}
    (h : ¬(s.Export.isPrefixOf (trimLeft l) = true ∧ s.Export ≠ [])) :
    NameVar s l = nameVarCore s l (trimLeft l) := by
  unfold NameVar
  rw [if_neg h]

theorem NameVar_success_core {s : Sourcer} {l0 name v : Str}
    (h : NameVar s l0 = (name, v, none)) :
    ∃ l, nameVarCore s l0 l = (name, v, none) := by
  unfold NameVar at h
  split_ifs at h
  · simp at h
  · exact ⟨_, h⟩
  · exact ⟨_, h⟩

/-! ### The claims -/

/-- Claim C1, counterexample: under the default configuration the line
`ab"cd=foobar` parses successfully although the returned name `ab"cd`
contains the quote token (the Go code never checks names for the quote
token, and `TestSourcer_NameVar_default` pins this behavior down). -/
theorem C1_counterexample :
    NameVar defaultSourcer (str "ab\"cd=foobar") =
      (str "ab\"cd", str "foobar", none) ∧
    strContains (str "ab\"cd") defaultSourcer.Quote = true := by decide

/-- Claim C1, amended: for every line on which `NameVar` succeeds under
the default configuration, the returned name is non-empty and contains
no space or tab character and no occurrence of the comment token `#`
(but it may contain the quote token). -/
theorem C1_name_invariant (line name v : Str)
    (h : NameVar defaultSourcer line = (name, v, none)) :
    name ≠ [] ∧ name.any isSpaceTab = false ∧
      strContains name defaultSourcer.Comment = false := by
  obtain ⟨l, hc⟩ := NameVar_success_core h
  have hinv := nameVarCore_success_invalid_false hc
  simp only [isNameInvalid, defaultSourcer, List.isEmpty_cons, Bool.not_false,
    Bool.and_true, Bool.or_eq_false_iff] at hinv
  obtain ⟨⟨hlen, hws⟩, hcontains⟩ := hinv
  refine ⟨?_, hws, ?_⟩
  · intro hn
    subst hn
    simp at hlen
  · exact hcontains

/-- Claim C1 witness: instantiating the invariant on the line `a=b`. -/
theorem C1_witness :
    (str "a") ≠ [] ∧ (str "a").any isSpaceTab = false ∧
      strContains (str "a") defaultSourcer.Comment = false :=
  C1_name_invariant (str "a=b") (str "a") (str "b") (by decide)

/-- Claim C2, counterexample: with `Export = "export"` and `Comment = ""`,
`NameVar("export a=b")` does not succeed with `("a","b")`; it fails with
`NonVariableLine` because `strings.HasPrefix(line, s.Comment)` is not
guarded by `s.Comment != ""` and the empty comment token is a prefix of
every remainder. -/
theorem C2_counterexample :
    NameVar { defaultSourcer with Comment := [] } (str "export a=b") =
      ([], [], some (.nonVariableLine (str "export a=b"))) ∧
    NameVar { defaultSourcer with Comment := [] } (str "export a=b") ≠
      (str "a", str "b", none) := by decide

/-- Claim C2, amended: in the export-prefix step, after the non-empty
export token is stripped and the remainder left-trimmed, `NameVar` fails
with `NonVariableLine` exactly when the remainder is empty or the
remainder starts with the comment token, where the empty comment token
counts as a prefix of every remainder; in particular, with
`Export = "export"` and `Comment = ""`, `NameVar("export a=b")` fails
with `NonVariableLine("export a=b")`. -/
theorem C2_export_step :
    (∀ (s : Sourcer) (line : Str),
        s.Export.isPrefixOf (trimLeft line) = true → s.Export ≠ [] →
        ((trimLeft (trimToken (trimLeft line) s.Export)).length = 0 ∨
            s.Comment.isPrefixOf (trimLeft (trimToken (trimLeft line) s.Export)) = true →
          NameVar s line = ([], [], some (.nonVariableLine line))) ∧
        (¬((trimLeft (trimToken (trimLeft line) s.Export)).length = 0 ∨
            s.Comment.isPrefixOf (trimLeft (trimToken (trimLeft line) s.Export)) = true) →
          NameVar s line =
            nameVarCore s line (trimLeft (trimToken (trimLeft line) s.Export)))) ∧
    NameVar { defaultSourcer with Comment := [] } (str "export a=b") =
      ([], [], some (.nonVariableLine (str "export a=b"))) := by
  refine ⟨?_, by decide⟩
  intro s line hp hne
  constructor
  · intro hc
    unfold NameVar
    rw [if_pos ⟨hp, hne⟩, if_pos hc]
  · intro hc
    unfold NameVar
    rw [if_pos ⟨hp, hne⟩, if_neg hc]

/-- Claim C2 witness: the export keyword alone fails with
`NonVariableLine` via the export-prefix step. -/
theorem C2_witness :
    NameVar defaultSourcer (str "export") =
      ([], [], some (.nonVariableLine (str "export"))) :=
  (C2_export_step.1 defaultSourcer (str "export") (by decide) (by decide)).1
    (by decide)

/-- Claim C5 (code bug): `SourceFile`, after successfully opening the
file, does not close the handle when `Source` returns an error — the Go
code returns early without any `defer file.Close()`, contradicting both
the spec and the function's own doc comment.  On a file whose only line
is `export`, the parse error is returned and `Close` is never called. -/
theorem C5_close_skipped_on_error :
    (SourceFile defaultSourcer collectVisit [str "export"] []).2 = false ∧
    (SourceFile defaultSourcer collectVisit [str "export"] []).1.2 =
      some ⟨1, Sum.inl (.nonVariableLine (str "export"))⟩ := by decide

/-- Claim C6: when the quote token is non-empty and the raw value starts
with it, then if it also ends with it and differs from the bare token the
whole raw value is passed to the configured unquote function and that
function's result or failure is the outcome; otherwise the outcome is
`UnclosedQuote` carrying the raw value and the quote token.  Under the
defaults, `A_B_C_D="foo\nbar"` yields `foo`, newline, `bar`, and `a="`
yields the unclosed-quote error. -/
theorem C6_quoted_value :
    (∀ (s : Sourcer) (v : Str), s.Quote ≠ [] → s.Quote.isPrefixOf v = true →
      ((s.Quote.isSuffixOf v = true ∧ v ≠ s.Quote) →
        fixVariable s v = s.Unquote v) ∧
      (¬(s.Quote.isSuffixOf v = true ∧ v ≠ s.Quote) →
        fixVariable s v = ([], some (.valueUnclosedQuote v s.Quote)))) ∧
    NameVar defaultSourcer (str "A_B_C_D=\"foo\\nbar\"") =
      (str "A_B_C_D", str "foo\nbar", none) ∧
    NameVar defaultSourcer (str "a=\"") =
      (str "a", [], some (.valueUnclosedQuote (str "\"") (str "\""))) := by
  refine ⟨?_, by decide, by decide⟩
  intro s v hq hp
  have hv : ¬v.length = 0 := by
    intro h0
    rw [List.length_eq_zero] at h0
    subst h0
    cases hQ : s.Quote with
    | nil => exact hq hQ
    | cons a t => rw [hQ] at hp; simp [List.isPrefixOf] at hp
  constructor
  · intro hclosed
    unfold fixVariable
    rw [if_neg hv, if_pos ⟨hp, hq⟩, if_pos hclosed]
  · intro hno
    unfold fixVariable
    rw [if_neg hv, if_pos ⟨hp, hq⟩, if_neg hno]

/-- Claim C6 witness: instantiating the quoted branch on the value
`"x"`, which starts and ends with the default quote token. -/
theorem C6_witness :
    fixVariable defaultSourcer (str "\"x\"") =
      defaultSourcer.Unquote (str "\"x\"") :=
  (C6_quoted_value.1 defaultSourcer (str "\"x\"") (by decide) (by decide)).1
    (by decide)

/-- Claim C7: under the default configuration, every line that is empty
or consists only of spaces and tabs, and every line whose first
non-whitespace content begins with the comment token `#`, yields the
skip outcome `ErrEmptyLine` from `NameVar` — including lines such as
`#name=value` that contain `=`. -/
theorem C7_skip_lines (line : Str) :
    (trimLeft line = [] → NameVar defaultSourcer line = ([], [], some .emptyLine)) ∧
    (defaultSourcer.Comment.isPrefixOf (trimLeft line) = true →
      NameVar defaultSourcer line = ([], [], some .emptyLine)) := by
  constructor
  · intro h
    have hexp : ¬(defaultSourcer.Export.isPrefixOf (trimLeft line) = true ∧
        defaultSourcer.Export ≠ []) := by
      rintro ⟨h1, -⟩
      rw [h] at h1
      simp [defaultSourcer, List.isPrefixOf] at h1
    rw [NameVar_no_export hexp, h, nameVarCore_none (by rfl)]
    simp [trimLeft_nil]
  · intro h
    rcases hl : trimLeft line with _ | ⟨a, t⟩
    · rw [hl] at h
      simp [defaultSourcer, List.isPrefixOf] at h
    · have ha : a = '#' := by
        rw [hl, show defaultSourcer.Comment = ['#'] from rfl,
          isPrefixOf_cons_eq] at h
        simp [List.isPrefixOf] at h
        exact h.symm
      subst ha
      have hexp : ¬(defaultSourcer.Export.isPrefixOf (trimLeft line) = true ∧
          defaultSourcer.Export ≠ []) := by
        rintro ⟨h1, -⟩
        rw [hl] at h1
        rw [show defaultSourcer.Export = 'e' :: ['x', 'p', 'o', 'r', 't'] from rfl,
          isPrefixOf_cons_ne (by decide)] at h1
        exact Bool.false_ne_true h1
      have ht : trimLeft ('#' :: t) = '#' :: t := trimLeft_cons_neg (by decide) t
      have hpref : defaultSourcer.Comment.isPrefixOf ('#' :: t) = true := by
        rw [show defaultSourcer.Comment = ['#'] from rfl, isPrefixOf_cons_eq]
        simp [List.isPrefixOf]
      rw [NameVar_no_export hexp, hl]
      rcases hI : strIndex ('#' :: t) ['='] with _ | i
      · rw [nameVarCore_none hI, ht, if_pos (Or.inr ⟨hpref, by decide⟩)]
      · rw [nameVarCore_some hI, ht, if_pos ⟨hpref, by decide⟩]

/-- Claim C7 witness: instantiating both parts, on a whitespace-only
line and on an indented comment line. -/
theorem C7_witness :
    NameVar defaultSourcer (str " \t") = ([], [], some .emptyLine) ∧
    NameVar defaultSourcer (str " #name=value") = ([], [], some .emptyLine) :=
  ⟨(C7_skip_lines (str " \t")).1 (by decide),
   (C7_skip_lines (str " #name=value")).2 (by decide)⟩

/-- Claim C9: boundary cases under the default configuration: `a=` and
`a=#` give the empty value, `a=b  c` preserves internal whitespace,
`a= b` fails with the invalid-leading-whitespace error carrying `" b"`,
and `a="` fails with the unclosed-quote error. -/
theorem C9_boundary :
    NameVar defaultSourcer (str "a=") = (str "a", [], none) ∧
    NameVar defaultSourcer (str "a=#") = (str "a", [], none) ∧
    NameVar defaultSourcer (str "a=b  c") = (str "a", str "b  c", none) ∧
    NameVar defaultSourcer (str "a= b") =
      (str "a", [], some (.invalidWhitespaceValuePrefix (str " b"))) ∧
    NameVar defaultSourcer (str "a=\"") =
      (str "a", [], some (.valueUnclosedQuote (str "\"") (str "\""))) := by
  decide

/-- Claim C4, counterexample: `NameVar` succeeds on `export a=b`, but
prefixing the export keyword again makes it fail: the export strip runs
only once, so `export export a=b` splits at the `=` with raw name
`export a`, which contains a space and is rejected as an invalid name. -/
theorem C4_counterexample :
    NameVar defaultSourcer (str "export a=b") = (str "a", str "b", none) ∧
    NameVar defaultSourcer (str "export export a=b") =
      ([], [], some (.invalidName (str "export a"))) := by decide

/-- Claim C4, amended: for every line `D` on which `NameVar` succeeds
under the default configuration and whose left-trimmed form does not
itself begin with the export token, `NameVar ("export " ++ D)` returns
the same name/value pair with no error. -/
theorem C4_export_transparency (D name v : Str)
    (hs : NameVar defaultSourcer D = (name, v, none))
    (hx : defaultSourcer.Export.isPrefixOf (trimLeft D) = false) :
    NameVar defaultSourcer (str "export " ++ D) = (name, v, none) := by
  have hexp : ¬(defaultSourcer.Export.isPrefixOf (trimLeft D) = true ∧
      defaultSourcer.Export ≠ []) := by
    rintro ⟨h1, -⟩
    rw [hx] at h1
    exact Bool.false_ne_true h1
  rw [NameVar_no_export hexp] at hs
  obtain ⟨hne, hcs⟩ := nameVarCore_success_line_facts hs
  have e1 : trimLeft (str "export " ++ D) = str "export " ++ D := by
    show trimLeft ('e' :: (str "xport " ++ D)) = 'e' :: (str "xport " ++ D)
    exact trimLeft_cons_neg (by decide) _
  have hP : defaultSourcer.Export.isPrefixOf (trimLeft (str "export " ++ D)) = true := by
    rw [e1]
    show List.isPrefixOf ['e', 'x', 'p', 'o', 'r', 't']
      ('e' :: 'x' :: 'p' :: 'o' :: 'r' :: 't' :: ' ' :: D) = true
    simp [List.isPrefixOf]
  have e2 : trimToken (trimLeft (str "export " ++ D)) defaultSourcer.Export = ' ' :: D := by
    rw [e1, trimToken, if_pos (by rw [← e1]; exact hP)]
    rfl
  have e3 : trimLeft (' ' :: D) = trimLeft D := trimLeft_cons_pos (by decide) D
  have hcp : ¬(defaultSourcer.Comment.isPrefixOf (trimLeft D) = true) := fun hp =>
    hcs ⟨by rw [trimLeft_idem]; exact hp, by decide⟩
  unfold NameVar
  rw [if_pos ⟨hP, by decide⟩, e2, e3]
  rw [if_neg (by
    rintro (h0 | hp)
    · exact hne (List.length_eq_zero.mp h0)
    · exact hcp hp)]
  exact nameVarCore_success_origLine hs

/-- Claim C4 witness: instantiating export transparency on `a=b`. -/
theorem C4_witness :
    NameVar defaultSourcer (str "export " ++ str "a=b") =
      (str "a", str "b", none) :=
  C4_export_transparency (str "a=b") (str "a") (str "b") (by decide) (by decide)

theorem fixComment_none {s : Sourcer} {v : Str}
    (h : strIndex v s.Comment = none) : fixComment s v = v := by
  unfold fixComment
  rw [h]

theorem export_not_prefix_of_eq_line {name value : Str}
    (hx : defaultSourcer.Export.isPrefixOf name = false) :
    defaultSourcer.Export.isPrefixOf (name ++ '=' :: value) = false := by
  cases hb : defaultSourcer.Export.isPrefixOf (name ++ '=' :: value) with
  | false => rfl
  | true =>
    exfalso
    rw [List.isPrefixOf_iff_prefix] at hb
    have hn : name <+: name ++ '=' :: value := List.prefix_append _ _
    rcases List.prefix_or_prefix_of_prefix hb hn with h1 | h2
    · rw [← List.isPrefixOf_iff_prefix, hx] at h1
      exact Bool.false_ne_true h1
    · obtain ⟨t, ht⟩ := h2
      obtain ⟨u, hu⟩ := hb
      rw [← ht, List.append_assoc] at hu
      have htu := List.append_cancel_left hu
      cases t with
      | nil =>
        rw [List.append_nil] at ht
        have hrefl : defaultSourcer.Export.isPrefixOf name = true := by
          rw [List.isPrefixOf_iff_prefix, ht]
        rw [hx] at hrefl
        exact Bool.false_ne_true hrefl
      | cons d t' =>
        rw [List.cons_append] at htu
        injection htu with hd htail
        have hin : '=' ∈ defaultSourcer.Export := by
          rw [← ht, hd]
          exact List.mem_append_right _ (List.mem_cons_self _ _)
        simp [defaultSourcer] at hin

/-- Claim C3, counterexample: the name `exportx` satisfies the claim's
conditions (non-empty, no whitespace, no comment token, no quote token)
and `b` is an acceptable unquoted value, but `NameVar("exportx=b")` does
not return `("exportx", "b")`: the export-prefix step strips the leading
`export`, leaving name `x`. -/
theorem C3_counterexample :
    (str "exportx") ≠ [] ∧
    (str "exportx").any isSpaceTab = false ∧
    strContains (str "exportx") defaultSourcer.Comment = false ∧
    strContains (str "exportx") defaultSourcer.Quote = false ∧
    trimLeft (str "b") = str "b" ∧
    strContains (str "b") defaultSourcer.Comment = false ∧
    NameVar defaultSourcer (str "exportx" ++ '=' :: str "b") =
      (str "x", str "b", none) ∧
    NameVar defaultSourcer (str "exportx" ++ '=' :: str "b") ≠
      (str "exportx", str "b", none) := by decide

/-- Claim C3, amended: under the default configuration, for every name
that is non-empty and contains no space or tab, no comment token, no
quote token, no `=`, and does not begin with the export token, and every
value that has no leading whitespace, no trailing whitespace, no
occurrence of the comment token, and does not begin with the quote token,
`NameVar (name ++ "=" ++ value)` returns exactly `(name, value)` with no
error. -/
theorem C3_round_trip (name value : Str)
    (h1 : name ≠ [])
    (h2 : name.any isSpaceTab = false)
    (h3 : strContains name defaultSourcer.Comment = false)
    (h4 : strContains name defaultSourcer.Quote = false)
    (h5 : strContains name ['='] = false)
    (h6 : defaultSourcer.Export.isPrefixOf name = false)
    (h7 : trimLeft value = value)
    (h8 : strContains value defaultSourcer.Comment = false)
    (h9 : trimRight value = value)
    (h10 : defaultSourcer.Quote.isPrefixOf value = false) :
    NameVar defaultSourcer (name ++ '=' :: value) = (name, value, none) := by
  have hm3 : '#' ∉ name :=
    strContains_single_eq_false_iff.mp (show strContains name ['#'] = false from h3)
  have hm5 : '=' ∉ name := strContains_single_eq_false_iff.mp h5
  have hm8 : '#' ∉ value :=
    strContains_single_eq_false_iff.mp (show strContains value ['#'] = false from h8)
  obtain ⟨c, nm, rfl⟩ : ∃ c nm, name = c :: nm := by
    cases name with
    | nil => exact absurd rfl h1
    | cons c nm => exact ⟨c, nm, rfl⟩
  have hcst : isSpaceTab c = false := by
    rw [List.any_cons, Bool.or_eq_false_iff] at h2
    exact h2.1
  have e1 : trimLeft ((c :: nm) ++ '=' :: value) = (c :: nm) ++ '=' :: value := by
    rw [List.cons_append]
    exact trimLeft_cons_neg hcst _
  have hexp : ¬(defaultSourcer.Export.isPrefixOf
      (trimLeft ((c :: nm) ++ '=' :: value)) = true ∧
      defaultSourcer.Export ≠ []) := by
    rintro ⟨hp, -⟩
    rw [e1, export_not_prefix_of_eq_line h6] at hp
    exact Bool.false_ne_true hp
  rw [NameVar_no_export hexp, e1]
  have hI : strIndex ((c :: nm) ++ '=' :: value) ['='] = some (c :: nm).length :=
    strIndex_append_single hm5
  rw [nameVarCore_some hI]
  have hcc : ¬(defaultSourcer.Comment.isPrefixOf
      (trimLeft ((c :: nm) ++ '=' :: value)) = true ∧
      defaultSourcer.Comment ≠ []) := by
    rintro ⟨hp, -⟩
    rw [e1, List.cons_append, show defaultSourcer.Comment = ['#'] from rfl,
      isPrefixOf_cons_eq] at hp
    simp [List.isPrefixOf] at hp
    exact hm3 (hp ▸ List.mem_cons_self c nm)
  rw [if_neg hcc]
  have etake : List.take (c :: nm).length ((c :: nm) ++ '=' :: value) = c :: nm :=
    List.take_left _ _
  have edrop : List.drop ((c :: nm).length + 1) ((c :: nm) ++ '=' :: value) = value := by
    have hsplit : (c :: nm) ++ '=' :: value = ((c :: nm) ++ ['=']) ++ value := by
      rw [List.append_assoc]
      rfl
    have hlen : (c :: nm).length + 1 = ((c :: nm) ++ ['=']).length := by simp
    rw [hsplit, hlen]
    exact List.drop_left _ _
  rw [etake, edrop, trimLeft_cons_neg hcst nm]
  have hinv : isNameInvalid defaultSourcer (c :: nm) = false := by
    simp [isNameInvalid, h2, h3]
  rw [if_neg (by rw [hinv]; exact Bool.false_ne_true)]
  have hcn : strIndex value defaultSourcer.Comment = none :=
    strIndex_single_eq_none_iff.mpr hm8
  have hfc : fixComment defaultSourcer value = value := fixComment_none hcn
  have hfv : fixVariable defaultSourcer value = (value, none) := by
    by_cases h0 : value.length = 0
    · unfold fixVariable
      rw [if_pos h0]
    · unfold fixVariable
      rw [if_neg h0, if_neg (by
        rintro ⟨hq, -⟩
        rw [h10] at hq
        exact Bool.false_ne_true hq), hfc, h9]
      rw [if_neg (fun hne => hne h7.symm)]
  rw [hfv]

/-- Claim C3 witness: instantiating the round trip on the name `A` and
the value `b c` (internal whitespace preserved). -/
theorem C3_witness :
    NameVar defaultSourcer (str "A" ++ '=' :: str "b c") =
      (str "A", str "b c", none) :=
  C3_round_trip (str "A") (str "b c") (by decide) (by decide) (by decide)
    (by decide) (by decide) (by decide) (by decide) (by decide) (by decide)
    (by decide)

/-! ### The Source Driver, compared against the spec's description -/

theorem sourceVisitorAux_cons_skip {σ ε : Type} {s : Sourcer}
    {visit : Str → Str → σ → σ × Option ε} {l nm vv : Str} {rest : List Str}
    {n : Nat} {st : σ} (hnv : NameVar s l = (nm, vv, some .emptyLine)) :
    sourceVisitorAux s visit (l :: rest) n st =
      sourceVisitorAux s visit rest (n + 1) st := by
  simp only [sourceVisitorAux]
  rw [hnv]

theorem sourceVisitorAux_cons_err {σ ε : Type} {s : Sourcer}
    {visit : Str → Str → σ → σ × Option ε} {l nm vv : Str} {rest : List Str}
    {n : Nat} {st : σ} {e : LineError} (hnv : NameVar s l = (nm, vv, some e))
    (he : e ≠ .emptyLine) :
    sourceVisitorAux s visit (l :: rest) n st =
      (st, some ⟨n + 1, Sum.inl e⟩) := by
  simp only [sourceVisitorAux]
  rw [hnv]
  cases e with
  | emptyLine => exact absurd rfl he
  | nonVariableLine a => rfl
  | invalidName a => rfl
  | invalidWhitespaceValuePrefix a => rfl
  | valueUnclosedQuote a b => rfl
  | unquoteSyntax => rfl

theorem sourceVisitorAux_cons_entry_ok {σ ε : Type} {s : Sourcer}
    {visit : Str → Str → σ → σ × Option ε} {l nm vv : Str} {rest : List Str}
    {n : Nat} {st st2 : σ} (hnv : NameVar s l = (nm, vv, none))
    (hv : visit nm vv st = (st2, none)) :
    sourceVisitorAux s visit (l :: rest) n st =
      sourceVisitorAux s visit rest (n + 1) st2 := by
  simp only [sourceVisitorAux]
  rw [hnv]
  show (match visit nm vv st with
    | (st', none) => sourceVisitorAux s visit rest (n + 1) st'
    | (st', some e) => (st', some ⟨n + 1, Sum.inr e⟩)) = _
  rw [hv]

theorem sourceVisitorAux_cons_entry_fail {σ ε : Type} {s : Sourcer}
    {visit : Str → Str → σ → σ × Option ε} {l nm vv : Str} {rest : List Str}
    {n : Nat} {st st2 : σ} {e : ε} (hnv : NameVar s l = (nm, vv, none))
    (hv : visit nm vv st = (st2, some e)) :
    sourceVisitorAux s visit (l :: rest) n st =
      (st2, some ⟨n + 1, Sum.inr e⟩) := by
  simp only [sourceVisitorAux]
  rw [hnv]
  show (match visit nm vv st with
    | (st', none) => sourceVisitorAux s visit rest (n + 1) st'
    | (st', some e) => (st', some ⟨n + 1, Sum.inr e⟩)) = _
  rw [hv]

theorem driveSpecAux_cons_skip {σ ε : Type} {s : Sourcer}
    {visit : Str → Str → σ → σ × Option ε} {l : Str} {rest : List Str}
    {n : Nat} {st : σ} (hpo : parseOutcome s l = .skip) :
    driveSpecAux s visit (l :: rest) n st =
      driveSpecAux s visit rest (n + 1) st := by
  simp only [driveSpecAux]
  rw [hpo]

theorem driveSpecAux_cons_fail {σ ε : Type} {s : Sourcer}
    {visit : Str → Str → σ → σ × Option ε} {l : Str} {rest : List Str}
    {n : Nat} {st : σ} {e : LineError} (hpo : parseOutcome s l = .fail e) :
    driveSpecAux s visit (l :: rest) n st = (st, some ⟨n, Sum.inl e⟩) := by
  simp only [driveSpecAux]
  rw [hpo]

theorem driveSpecAux_cons_entry_ok {σ ε : Type} {s : Sourcer}
    {visit : Str → Str → σ → σ × Option ε} {l nm vv : Str} {rest : List Str}
    {n : Nat} {st st2 : σ} (hpo : parseOutcome s l = .entry nm vv)
    (hv : visit nm vv st = (st2, none)) :
    driveSpecAux s visit (l :: rest) n st =
      driveSpecAux s visit rest (n + 1) st2 := by
  simp only [driveSpecAux]
  rw [hpo]
  show (match visit nm vv st with
    | (st', none) => driveSpecAux s visit rest (n + 1) st'
    | (st', some e) => (st', some ⟨n, Sum.inr e⟩)) = _
  rw [hv]

theorem driveSpecAux_cons_entry_fail {σ ε : Type} {s : Sourcer}
    {visit : Str → Str → σ → σ × Option ε} {l nm vv : Str} {rest : List Str}
    {n : Nat} {st st2 : σ} {e : ε} (hpo : parseOutcome s l = .entry nm vv)
    (hv : visit nm vv st = (st2, some e)) :
    driveSpecAux s visit (l :: rest) n st = (st2, some ⟨n, Sum.inr e⟩) := by
  simp only [driveSpecAux]
  rw [hpo]
  show (match visit nm vv st with
    | (st', none) => driveSpecAux s visit rest (n + 1) st'
    | (st', some e) => (st', some ⟨n, Sum.inr e⟩)) = _
  rw [hv]

theorem parseOutcome_skip {s : Sourcer} {l nm vv : Str}
    (hnv : NameVar s l = (nm, vv, some .emptyLine)) :
    parseOutcome s l = .skip := by
  unfold parseOutcome
  rw [hnv]

theorem parseOutcome_fail {s : Sourcer} {l nm vv : Str} {e : LineError}
    (hnv : NameVar s l = (nm, vv, some e)) (he : e ≠ .emptyLine) :
    parseOutcome s l = .fail e := by
  unfold parseOutcome
  rw [hnv]
  cases e with
  | emptyLine => exact absurd rfl he
  | nonVariableLine a => rfl
  | invalidName a => rfl
  | invalidWhitespaceValuePrefix a => rfl
  | valueUnclosedQuote a b => rfl
  | unquoteSyntax => rfl

theorem parseOutcome_entry {s : Sourcer} {l nm vv : Str}
    (hnv : NameVar s l = (nm, vv, none)) :
    parseOutcome s l = .entry nm vv := by
  unfold parseOutcome
  rw [hnv]

theorem sourceVisitorAux_eq_driveSpecAux {σ ε : Type} (s : Sourcer)
    (visit : Str → Str → σ → σ × Option ε) :
    ∀ (lines : List Str) (n : Nat) (st : σ),
      sourceVisitorAux s visit lines n st = driveSpecAux s visit lines (n + 1) st := by
  intro lines
  induction lines with
  | nil => intro n st; rfl
  | cons l rest ih =>
    intro n st
    rcases hnv : NameVar s l with ⟨nm, vv, err⟩
    rcases err with _ | e
    · rcases hv : visit nm vv st with ⟨st2, ve⟩
      rcases ve with _ | e
      · rw [sourceVisitorAux_cons_entry_ok hnv hv,
          driveSpecAux_cons_entry_ok (parseOutcome_entry hnv) hv, ih]
      · rw [sourceVisitorAux_cons_entry_fail hnv hv,
          driveSpecAux_cons_entry_fail (parseOutcome_entry hnv) hv]
    · by_cases he : e = .emptyLine
      · subst he
        rw [sourceVisitorAux_cons_skip hnv,
          driveSpecAux_cons_skip (parseOutcome_skip hnv), ih]
      · rw [sourceVisitorAux_cons_err hnv he,
          driveSpecAux_cons_fail (parseOutcome_fail hnv he)]

theorem sourceVisitorAux_no_emptyLine {σ ε : Type} (s : Sourcer)
    (visit : Str → Str → σ → σ × Option ε) :
    ∀ (lines : List Str) (n : Nat) (st : σ) (st' : σ) (err : ErrSourcing ε),
      sourceVisitorAux s visit lines n st = (st', some err) →
      err.lineError ≠ Sum.inl .emptyLine := by
  intro lines
  induction lines with
  | nil =>
    intro n st st' err h
    simp [sourceVisitorAux] at h
  | cons l rest ih =>
    intro n st st' err h
    rcases hnv : NameVar s l with ⟨nm, vv, e⟩
    rcases e with _ | e
    · rcases hv : visit nm vv st with ⟨st2, ve⟩
      rcases ve with _ | e
      · rw [sourceVisitorAux_cons_entry_ok hnv hv] at h
        exact ih (n + 1) st2 st' err h
      · rw [sourceVisitorAux_cons_entry_fail hnv hv, Prod.mk.injEq,
          Option.some.injEq] at h
        rw [← h.2]
        simp
    · by_cases he : e = .emptyLine
      · subst he
        rw [sourceVisitorAux_cons_skip hnv] at h
        exact ih (n + 1) st st' err h
      · rw [sourceVisitorAux_cons_err hnv he, Prod.mk.injEq,
          Option.some.injEq] at h
        rw [← h.2]
        simp [he]

/-- Claim C8: the driver equals the spec's drive loop — every physical
line is counted by a 1-based counter, a skip outcome produces no visitor
call and processing continues, the first non-skip parse error or visitor
failure is returned wrapped with its 1-based line number and stops the
loop, exhaustion yields success — and the sentinel `ErrEmptyLine` is
never returned, wrapped or unwrapped. -/
theorem C8_driver {σ ε : Type} (s : Sourcer)
    (visit : Str → Str → σ → σ × Option ε) (lines : List Str) (st : σ) :
    sourceVisitor s visit lines st = driveSpec s visit lines st ∧
    ∀ (st' : σ) (err : ErrSourcing ε),
      sourceVisitor s visit lines st = (st', some err) →
      err.lineError ≠ Sum.inl .emptyLine := by
  constructor
  · exact sourceVisitorAux_eq_driveSpecAux s visit lines 0 st
  · intro st' err h
    exact sourceVisitorAux_no_emptyLine s visit lines 0 st st' err h

/-- Claim C8 witness: on a two-line stream whose second line is not a
variable definition, the driver fails at line 2 and the wrapped error is
not the sentinel. -/
theorem C8_witness :
    (⟨2, Sum.inl (.nonVariableLine (str "export"))⟩ : ErrSourcing Unit).lineError ≠
      Sum.inl .emptyLine :=
  (C8_driver defaultSourcer (fun _ _ (st : Unit) => (st, none))
      [str "a=b", str "export"] ()).2 ()
    ⟨2, Sum.inl (.nonVariableLine (str "export"))⟩ (by decide)

/-! ### No rollback: the driver's state is the fold of the visitor over
the successfully parsed entries -/

theorem foldVisits_cons {σ ε : Type} (visit : Str → Str → σ → σ × Option ε)
    (st : σ) (nv : Str × Str) (es : List (Str × Str)) :
    foldVisits visit st (nv :: es) = foldVisits visit (visit nv.1 nv.2 st).1 es := rfl

theorem lineEntries_cons_entry {s : Sourcer} {l nm vv : Str} {rest : List Str}
    (hnv : NameVar s l = (nm, vv, none)) :
    lineEntries s (l :: rest) = (nm, vv) :: lineEntries s rest := by
  simp only [lineEntries, List.filterMap_cons]
  rw [hnv]

theorem lineEntries_cons_skip {s : Sourcer} {l nm vv : Str} {rest : List Str}
    {e : LineError} (hnv : NameVar s l = (nm, vv, some e)) :
    lineEntries s (l :: rest) = lineEntries s rest := by
  simp only [lineEntries, List.filterMap_cons]
  rw [hnv]

theorem sourceVisitorAux_state {σ ε : Type} (s : Sourcer)
    (visit : Str → Str → σ → σ × Option ε) :
    ∀ (lines : List Str) (c : Nat) (st : σ),
      (∀ st', sourceVisitorAux s visit lines c st = (st', none) →
        st' = foldVisits visit st (lineEntries s lines)) ∧
      (∀ st' n e, sourceVisitorAux s visit lines c st = (st', some ⟨n, Sum.inl e⟩) →
        c + 1 ≤ n ∧
        st' = foldVisits visit st (lineEntries s (lines.take (n - 1 - c)))) ∧
      (∀ st' n e, sourceVisitorAux s visit lines c st = (st', some ⟨n, Sum.inr e⟩) →
        c + 1 ≤ n ∧
        ∃ l rest, lines.drop (n - 1 - c) = l :: rest ∧
          ∃ nm vv, NameVar s l = (nm, vv, none) ∧
            visit nm vv (foldVisits visit st (lineEntries s (lines.take (n - 1 - c)))) =
              (st', some e)) := by
  intro lines
  induction lines with
  | nil =>
    intro c st
    refine ⟨?_, ?_, ?_⟩
    · intro st' h
      simp only [sourceVisitorAux, Prod.mk.injEq] at h
      rw [← h.1]
      rfl
    · intro st' n e h
      simp [sourceVisitorAux] at h
    · intro st' n e h
      simp [sourceVisitorAux] at h
  | cons l rest ih =>
    intro c st
    rcases hnv : NameVar s l with ⟨nm, vv, err⟩
    rcases err with _ | e
    · rcases hv : visit nm vv st with ⟨st2, ve⟩
      rcases ve with _ | e
      · obtain ⟨ih1, ih2, ih3⟩ := ih (c + 1) st2
        refine ⟨?_, ?_, ?_⟩
        · intro st' h
          rw [sourceVisitorAux_cons_entry_ok hnv hv] at h
          rw [ih1 st' h, lineEntries_cons_entry hnv, foldVisits_cons]
          rw [hv]
        · intro st' n e h
          rw [sourceVisitorAux_cons_entry_ok hnv hv] at h
          obtain ⟨hn, hst⟩ := ih2 st' n e h
          refine ⟨by omega, ?_⟩
          have h1 : n - 1 - c = (n - 1 - (c + 1)) + 1 := by omega
          rw [h1, List.take_succ_cons, lineEntries_cons_entry hnv,
            foldVisits_cons, hv]
          exact hst
        · intro st' n e h
          rw [sourceVisitorAux_cons_entry_ok hnv hv] at h
          obtain ⟨hn, l', rest', hdrop, nm', vv', hnv', hvisit⟩ := ih3 st' n e h
          have h1 : n - 1 - c = (n - 1 - (c + 1)) + 1 := by omega
          refine ⟨by omega, l', rest', ?_, nm', vv', hnv', ?_⟩
          · rw [h1, List.drop_succ_cons]
            exact hdrop
          · rw [h1, List.take_succ_cons, lineEntries_cons_entry hnv,
              foldVisits_cons, hv]
            exact hvisit
      · refine ⟨?_, ?_, ?_⟩
        · intro st' h
          rw [sourceVisitorAux_cons_entry_fail hnv hv] at h
          simp at h
        · intro st' n e' h
          rw [sourceVisitorAux_cons_entry_fail hnv hv, Prod.mk.injEq,
            Option.some.injEq, ErrSourcing.mk.injEq] at h
          exfalso
          have := h.2.2
          simp at this
        · intro st' n e' h
          rw [sourceVisitorAux_cons_entry_fail hnv hv, Prod.mk.injEq,
            Option.some.injEq, ErrSourcing.mk.injEq] at h
          obtain ⟨hst, hn, he⟩ := h
          rw [Sum.inr.injEq] at he
          subst hn
          refine ⟨le_refl _, l, rest, ?_, nm, vv, hnv, ?_⟩
          · have h0 : c + 1 - 1 - c = 0 := by omega
            rw [h0]
            rfl
          · have h0 : c + 1 - 1 - c = 0 := by omega
            rw [h0]
            show visit nm vv st = (st', some e')
            rw [hv, hst, he]
    · by_cases hee : e = .emptyLine
      · subst hee
        obtain ⟨ih1, ih2, ih3⟩ := ih (c + 1) st
        refine ⟨?_, ?_, ?_⟩
        · intro st' h
          rw [sourceVisitorAux_cons_skip hnv] at h
          rw [ih1 st' h, lineEntries_cons_skip hnv]
        · intro st' n e h
          rw [sourceVisitorAux_cons_skip hnv] at h
          obtain ⟨hn, hst⟩ := ih2 st' n e h
          refine ⟨by omega, ?_⟩
          have h1 : n - 1 - c = (n - 1 - (c + 1)) + 1 := by omega
          rw [h1, List.take_succ_cons, lineEntries_cons_skip hnv]
          exact hst
        · intro st' n e h
          rw [sourceVisitorAux_cons_skip hnv] at h
          obtain ⟨hn, l', rest', hdrop, nm', vv', hnv', hvisit⟩ := ih3 st' n e h
          have h1 : n - 1 - c = (n - 1 - (c + 1)) + 1 := by omega
          refine ⟨by omega, l', rest', ?_, nm', vv', hnv', ?_⟩
          · rw [h1, List.drop_succ_cons]
            exact hdrop
          · rw [h1, List.take_succ_cons, lineEntries_cons_skip hnv]
            exact hvisit
      · refine ⟨?_, ?_, ?_⟩
        · intro st' h
          rw [sourceVisitorAux_cons_err hnv hee] at h
          simp at h
        · intro st' n e' h
          rw [sourceVisitorAux_cons_err hnv hee, Prod.mk.injEq,
            Option.some.injEq, ErrSourcing.mk.injEq] at h
          obtain ⟨hst, hn, -⟩ := h
          subst hn
          refine ⟨le_refl _, ?_⟩
          have h0 : c + 1 - 1 - c = 0 := by omega
          rw [h0, ← hst]
          rfl
        · intro st' n e' h
          rw [sourceVisitorAux_cons_err hnv hee, Prod.mk.injEq,
            Option.some.injEq, ErrSourcing.mk.injEq] at h
          exfalso
          have := h.2.2
          simp at this

/-- Claim C10: when the driver returns an error at physical line `n`,
the final visitor state is exactly the in-order fold of the visitor over
the entries successfully parsed on the lines before `n` — the visitor
was invoked once per earlier definition, and those invocations are not
undone (for `Source`, environment variables set from earlier lines
remain set); when a visitor failure stops the driver, line `n` itself
parsed successfully and its visit produced the final state; on success
the state is the fold over all entries. -/
theorem C10_no_rollback {σ ε : Type} (s : Sourcer)
    (visit : Str → Str → σ → σ × Option ε) (lines : List Str) (st : σ) :
    (∀ st', sourceVisitor s visit lines st = (st', none) →
      st' = foldVisits visit st (lineEntries s lines)) ∧
    (∀ st' n e, sourceVisitor s visit lines st = (st', some ⟨n, Sum.inl e⟩) →
      1 ≤ n ∧ st' = foldVisits visit st (lineEntries s (lines.take (n - 1)))) ∧
    (∀ st' n e, sourceVisitor s visit lines st = (st', some ⟨n, Sum.inr e⟩) →
      1 ≤ n ∧ ∃ l rest, lines.drop (n - 1) = l :: rest ∧
        ∃ nm vv, NameVar s l = (nm, vv, none) ∧
          visit nm vv (foldVisits visit st (lineEntries s (lines.take (n - 1)))) =
            (st', some e)) := by
  obtain ⟨h1, h2, h3⟩ := sourceVisitorAux_state s visit lines 0 st
  refine ⟨h1, ?_, ?_⟩
  · intro st' n e h
    obtain ⟨hn, hst⟩ := h2 st' n e h
    refine ⟨hn, ?_⟩
    rwa [Nat.sub_zero] at hst
  · intro st' n e h
    obtain ⟨hn, hrest⟩ := h3 st' n e h
    rw [Nat.sub_zero] at hrest
    exact ⟨hn, hrest⟩

/-- Claim C10 witness: on the stream `a=b`, `export`, the driver fails
at line 2 and the final state is the fold over the single entry parsed
before it. -/
theorem C10_witness :
    1 ≤ 2 ∧ [(str "a", str "b")] = foldVisits collectVisit []
      (lineEntries defaultSourcer ([str "a=b", str "export"].take (2 - 1))) :=
  (C10_no_rollback defaultSourcer collectVisit [str "a=b", str "export"] []).2.1
    [(str "a", str "b")] 2 (.nonVariableLine (str "export")) (by decide)

end Dotenv
